import Mathlib

/-!
Shallow embedding of the corporate order workflow of
giftsity-server-corporate: order assembly (POST /api/corporate/orders),
payment reconciliation (POST /api/corporate/orders/verify-payment),
cancellation with refund (POST /api/corporate/orders/:id/cancel), and
quote approval (POST /api/corporate/quotes/:id/approve).

Identifiers (emails, order numbers, session ids, product ids) are
modelled as natural numbers; money amounts and quantities as naturals;
`Product.stock` and `Product.orderCount` as integers so that the
non-negativity of stock is a provable property rather than a typing
artifact.  MongoDB update operations (`findOneAndUpdate`,
`findByIdAndUpdate`, `save`) act on the first document of a list that
matches their filter, exactly as Mongo does on a result set in
collection order.
-/

/-- Decidable equality on Except, for evaluating concrete outcomes of
the fallible operations. -/
instance instDecEqExcept {e a : Type} [DecidableEq e] [DecidableEq a] :
    DecidableEq (Except e a) := fun x y =>
  match x, y with
  | .error u, .error v =>
    if h : u = v then isTrue (by rw [h]) else isFalse (fun hc => h (Except.error.inj hc))
  | .error _, .ok _ => isFalse Except.noConfusion
  | .ok _, .error _ => isFalse Except.noConfusion
  | .ok u, .ok v =>
    if h : u = v then isTrue (by rw [h]) else isFalse (fun hc => h (Except.ok.inj hc))

namespace Corporate

/-- Lifecycle status of an order (field `status` of the Order model). -/
inductive OrderStatus where
  | pending
  | confirmed
  | cancelled
deriving DecidableEq, Repr

/-- Payment status of an order (field `paymentStatus` of the Order model). -/
inductive PaymentStatus where
  | unpaid
  | paid
  | refundPending
  | refunded
deriving DecidableEq, Repr

/-- Order status reported by the Cashfree gateway for a gateway order.
The code only distinguishes the literal string PAID from everything
else, surfacing the raw status in the error message. -/
inductive CfOrderStatus where
  | PAID
  | ACTIVE
  | EXPIRED
  | TERMINATED
deriving DecidableEq, Repr

/-- Payment status of a single payment attempt reported by the gateway. -/
inductive CfPaymentStatus where
  | SUCCESS
  | FAILED
  | PENDING
deriving DecidableEq, Repr

/-- One entry of the list returned by getCashfreePayments. -/
structure CfPayment where
  paymentStatus : CfPaymentStatus
  cfPaymentId : Nat
deriving DecidableEq, Repr

/-- A product document.  Only the fields read or written by the order
workflow are modelled.  stock and orderCount are integers: the mutations
are Mongo increment operators, which are not clamped at zero. -/
structure Product where
  id : Nat
  sellerId : Nat
  price : Nat
  stock : Int
  orderCount : Int
  isActive : Bool
deriving DecidableEq, Repr

/-- A corporate catalog entry for a product (CorporateCatalog model).
corporatePrice is an optional numeric field; none models an absent or
null field. -/
structure CatalogEntry where
  productId : Nat
  corporatePrice : Option Nat
  minOrderQty : Nat
  maxOrderQty : Nat
  isActive : Bool
deriving DecidableEq, Repr

/-- One line item embedded in an order document. -/
structure OrderItem where
  productId : Nat
  price : Nat
  quantity : Nat
  sellerId : Nat
deriving DecidableEq, Repr

/-- An order document.  Timestamps are naturals; the refund identifier
refund_orderNumber_now is modelled as the pair (orderNumber, now);
cancel reasons are opaque naturals (0 is the default reason string). -/
structure Order where
  id : Nat
  orderNumber : Nat
  customerEmail : Nat
  sellerId : Nat
  items : List OrderItem
  itemTotal : Nat
  totalAmount : Nat
  status : OrderStatus
  paymentStatus : PaymentStatus
  cashfreeOrderId : Option Nat
  paymentSessionId : Option Nat
  cashfreePaymentId : Option Nat
  paidAt : Option Nat
  cancelledAt : Option Nat
  cancelReason : Option Nat
  refundId : Option (Nat × Nat)
deriving DecidableEq, Repr

/-- Status of a corporate quote (CorporateQuote model). -/
inductive QuoteStatus where
  | sent
  | approved
  | rejected
  | expired
  | converted
deriving DecidableEq, Repr

/-- One line item of a quote. -/
structure QuoteItem where
  productId : Nat
  unitPrice : Nat
  quantity : Nat
deriving DecidableEq, Repr

/-- A corporate quote document. -/
structure Quote where
  id : Nat
  quoteNumber : Nat
  corporateUserId : Nat
  contactEmail : Nat
  items : List QuoteItem
  totalAmount : Nat
  finalAmount : Nat
  validUntil : Option Nat
  status : QuoteStatus
  convertedOrderId : Option Nat
deriving DecidableEq, Repr

/-- The persistent state touched by the workflow: the orders, products
and quotes collections. -/
structure St where
  orders : List Order
  products : List Product
  quotes : List Quote
deriving DecidableEq, Repr

/-! ### Atomic product mutations

The two Mongo update operators used by the workflow:

Reconciliation (orders route, verify-payment):
  Product.findOneAndUpdate(
    { _id: item.productId, stock: { $gte: item.quantity } },
    { $inc: { stock: -item.quantity, orderCount: item.quantity } })

Cancellation (orders route, :id/cancel):
  Product.findByIdAndUpdate(item.productId,
    { $inc: { stock: item.quantity, orderCount: -item.quantity } })
-/

/-- Conditional stock decrement: update the first product matching both
the id and the stock >= qty filter; decrement stock and increment
orderCount by qty in the same update.  No matching document: no-op. -/
def conditionalDecrement (pid qty : Nat) : List Product → List Product
  | [] => []
  | p :: ps =>
    if p.id = pid ∧ (qty : Int) ≤ p.stock then
      { p with stock := p.stock - qty, orderCount := p.orderCount + qty } :: ps
    else
      p :: conditionalDecrement pid qty ps

/-- Unconditional restore: update the first product matching the id;
increment stock and decrement orderCount by qty.  Missing product:
no-op (findByIdAndUpdate on an absent id matches nothing). -/
def restoreIncrement (pid qty : Nat) : List Product → List Product
  | [] => []
  | p :: ps =>
    if p.id = pid then
      { p with stock := p.stock + qty, orderCount := p.orderCount - qty } :: ps
    else
      p :: restoreIncrement pid qty ps

/-- The per-item loop of payment reconciliation: conditional decrement
for every line item of an order, in item order. -/
def decrementItems (items : List OrderItem) (ps : List Product) : List Product :=
  items.foldl (fun acc i => conditionalDecrement i.productId i.quantity acc) ps

/-- The per-item loop of cancellation: unconditional restore for every
line item of an order, in item order. -/
def restoreItems (items : List OrderItem) (ps : List Product) : List Product :=
  items.foldl (fun acc i => restoreIncrement i.productId i.quantity acc) ps

/-! ### Payment reconciliation (POST /api/corporate/orders/verify-payment) -/

/-- Errors of the verify-payment route. -/
inductive VerifyError where
  | orderIdRequired
  | paymentNotComplete (status : CfOrderStatus)
  | noMatchingOrders
deriving DecidableEq, Repr

/-- The query filter Order.find({ cashfreeOrderId: orderId,
customerEmail: req.corporateUser.email }). -/
def matchesVerify (orderId email : Nat) (o : Order) : Bool :=
  o.cashfreeOrderId = some orderId ∧ o.customerEmail = email

/-- Processing of one matching order inside the reconciliation loop:
skip if already paid, otherwise mark paid and confirmed, stamp the
gateway payment reference and payment time, then run the conditional
decrement for each line item. -/
def payOrder (payRef : Option Nat) (now : Nat) (o : Order) (ps : List Product) :
    Order × List Product :=
  if o.paymentStatus = .paid then (o, ps)
  else
    ({ o with paymentStatus := .paid, status := .confirmed,
              cashfreePaymentId := payRef, paidAt := some now },
     decrementItems o.items ps)

/-- The reconciliation loop over the orders collection: every order
matching the filter is processed (and saved in place), the product
state threads through in document order. -/
def verifyLoop (orderId email : Nat) (payRef : Option Nat) (now : Nat) :
    List Order → List Product → List Order × List Product
  | [], ps => ([], ps)
  | o :: os, ps =>
    if matchesVerify orderId email o then
      let r := payOrder payRef now o ps
      let rest := verifyLoop orderId email payRef now os r.2
      (r.1 :: rest.1, rest.2)
    else
      let rest := verifyLoop orderId email payRef now os ps
      (o :: rest.1, rest.2)

/-- The gateway payment reference stamped on orders: the cf_payment_id
of the first SUCCESS entry of the gateway's payment list, if any. -/
def gwPayRef (gwPayments : List CfPayment) : Option Nat :=
  (gwPayments.find? (fun p => p.paymentStatus = .SUCCESS)).map (·.cfPaymentId)

/-- POST /verify-payment.  gwStatus and gwPayments are the responses of
getCashfreeOrder and getCashfreePayments for orderId.  Fails unless the
gateway order status is PAID; fails if no local order matches the
gateway identifier and the requesting buyer; otherwise runs the
reconciliation loop. -/
def verifyPayment (gwStatus : CfOrderStatus) (gwPayments : List CfPayment)
    (orderId email now : Nat) (st : St) : Except VerifyError St :=
  if gwStatus ≠ .PAID then .error (.paymentNotComplete gwStatus)
  else
    if (st.orders.filter (matchesVerify orderId email)).isEmpty then
      .error .noMatchingOrders
    else
      let r := verifyLoop orderId email (gwPayRef gwPayments) now st.orders st.products
      .ok { st with orders := r.1, products := r.2 }

/-! ### Cancellation and refund (POST /api/corporate/orders/:id/cancel) -/

/-- Errors of the cancel route. -/
inductive CancelError where
  | orderNotFound
  | cannotCancel (status : OrderStatus)
deriving DecidableEq, Repr

/-- The query filter Order.findOne({ _id: id, customerEmail: email }). -/
def findOrder (oid email : Nat) (orders : List Order) : Option Order :=
  orders.find? (fun o => o.id = oid ∧ o.customerEmail = email)

/-- Mongoose save of an order document: replace the first document with
the same id. -/
def replaceOrder (o : Order) : List Order → List Order
  | [] => []
  | x :: xs => if x.id = o.id then o :: xs else x :: replaceOrder o xs

/-- The refund identifier minted on each cancellation attempt,
refund_orderNumber_now, modelled as the pair of the order number and
the current time. -/
def mkRefundId (orderNumber now : Nat) : Nat × Nat := (orderNumber, now)

/-- POST /:id/cancel.  refundOk is the outcome of the createRefund call
to the gateway (true: resolves, false: throws).  Only pending or
confirmed orders may be cancelled.  The order is first saved as
cancelled; if it was paid, stock and orderCount are restored for every
line item, then the refund is attempted: success stores paymentStatus
refunded and the refund identifier, failure stores refund_pending; the
cancellation succeeds either way. -/
def cancelOrder (oid email : Nat) (reason : Option Nat) (refundOk : Bool)
    (now : Nat) (st : St) : Except CancelError St :=
  match findOrder oid email st.orders with
  | none => .error .orderNotFound
  | some o =>
    if o.status ≠ .pending ∧ o.status ≠ .confirmed then
      .error (.cannotCancel o.status)
    else
      let o1 := { o with status := .cancelled, cancelledAt := some now,
                         cancelReason := some (reason.getD 0) }
      if o1.paymentStatus = .paid then
        let ps1 := restoreItems o1.items st.products
        let o2 :=
          if refundOk then
            { o1 with paymentStatus := .refunded,
                      refundId := some (mkRefundId o1.orderNumber now) }
          else
            { o1 with paymentStatus := .refundPending }
        .ok { st with orders := replaceOrder o2 st.orders, products := ps1 }
      else
        .ok { st with orders := replaceOrder o1 st.orders }

/-! ### Order assembly (POST /api/corporate/orders) -/

/-- One item of the request body: a product reference and a quantity. -/
structure ReqItem where
  productId : Nat
  quantity : Nat
deriving DecidableEq, Repr

/-- Errors of the create-order route.  The quantity errors carry the
bound named in the response message. -/
inductive CreateError where
  | noItems
  | noShippingAddress
  | notInCatalog (productId : Nat)
  | belowMin (minQ : Nat)
  | aboveMax (maxQ : Nat)
  | productUnavailable (productId : Nat)
  | sessionFailed
deriving DecidableEq, Repr

/-- CorporateCatalog.findOne({ productId, isActive: true }). -/
def findCatalogEntry (pid : Nat) (catalog : List CatalogEntry) : Option CatalogEntry :=
  catalog.find? (fun e => e.productId = pid ∧ e.isActive)

/-- Product.findById(productId). -/
def findProduct (pid : Nat) (products : List Product) : Option Product :=
  products.find? (fun p => p.id = pid)

/-- The effective unit price, catalogEntry.corporatePrice ||
product.price: a missing corporatePrice falls through to the base
price, and — this being a JavaScript truthiness test — so does a
corporatePrice equal to zero. -/
def effectiveUnitPrice (ce : CatalogEntry) (p : Product) : Nat :=
  match ce.corporatePrice with
  | some cp => if cp = 0 then p.price else cp
  | none => p.price

/-- An item of the request resolved against catalog and products. -/
structure ResolvedItem where
  product : Product
  quantity : Nat
  unitPrice : Nat
deriving DecidableEq, Repr

/-- Validation of a single request item, in source order: active
catalog entry, then the min bound, then the max bound, then product
existence and activity; on success the resolved item carries the
effective unit price. -/
def resolveItem (catalog : List CatalogEntry) (products : List Product)
    (it : ReqItem) : Except CreateError ResolvedItem :=
  match findCatalogEntry it.productId catalog with
  | none => .error (.notInCatalog it.productId)
  | some ce =>
    if it.quantity < ce.minOrderQty then .error (.belowMin ce.minOrderQty)
    else if ce.maxOrderQty < it.quantity then .error (.aboveMax ce.maxOrderQty)
    else
      match findProduct it.productId products with
      | none => .error (.productUnavailable it.productId)
      | some p =>
        if p.isActive then
          .ok { product := p, quantity := it.quantity,
                unitPrice := effectiveUnitPrice ce p }
        else .error (.productUnavailable it.productId)

/-- sellerGroups: a JavaScript object keyed by seller id, which
preserves first-insertion order of keys; each value is the list of that
seller's resolved items in push order. -/
abbrev SellerGroups := List (Nat × List ResolvedItem)

/-- sellerGroups[sid].push(item), creating the key on first use. -/
def addToGroups (sid : Nat) (ri : ResolvedItem) : SellerGroups → SellerGroups
  | [] => [(sid, [ri])]
  | (s, l) :: rest =>
    if s = sid then (s, l ++ [ri]) :: rest
    else (s, l) :: addToGroups sid ri rest

/-- The validation loop of the create-order route: each item is
resolved in turn (the first failure aborts the whole request) and
pushed onto its seller's group. -/
def validateItems (catalog : List CatalogEntry) (products : List Product) :
    List ReqItem → SellerGroups → Except CreateError SellerGroups
  | [], acc => .ok acc
  | it :: rest, acc =>
    match resolveItem catalog products it with
    | .error e => .error e
    | .ok ri => validateItems catalog products rest (addToGroups ri.product.sellerId ri acc)

/-- One line item of a new order, built from a resolved item. -/
def mkOrderItem (sid : Nat) (ri : ResolvedItem) : OrderItem :=
  { productId := ri.product.id, price := ri.unitPrice,
    quantity := ri.quantity, sellerId := sid }

/-- One new order for a seller group.  itemTotal is the sum of
unitPrice * quantity over the group; totalAmount = itemTotal (zero
shipping in this channel).

Modelled from the spec: the Order mongoose schema (server/models/Order)
is not part of this repository slice; per the spec's data model and
section 4.1, a freshly assembled order has lifecycle status pending and
payment status unpaid, and no gateway or session identifier yet. -/
def mkOrder (orderNumber oid email sid : Nat) (ris : List ResolvedItem) : Order :=
  { id := oid, orderNumber := orderNumber, customerEmail := email,
    sellerId := sid,
    items := ris.map (mkOrderItem sid),
    itemTotal := (ris.map (fun r => r.unitPrice * r.quantity)).sum,
    totalAmount := (ris.map (fun r => r.unitPrice * r.quantity)).sum,
    status := .pending, paymentStatus := .unpaid,
    cashfreeOrderId := none, paymentSessionId := none,
    cashfreePaymentId := none, paidAt := none, cancelledAt := none,
    cancelReason := none, refundId := none }

/-- The order-creation loop: one order per seller group, in group
order; gen idx is the order number generated for the idx-th order and
baseId + idx its fresh document id. -/
def buildOrders (gen : Nat → Nat) (baseId email : Nat) :
    Nat → SellerGroups → List Order
  | _, [] => []
  | idx, (sid, ris) :: rest =>
    mkOrder (gen idx) (baseId + idx) email sid ris ::
      buildOrders gen baseId email (idx + 1) rest

/-- The successful response of the create-order route: the persisted
orders and the cashfreeOrder summary (orderId, paymentSessionId,
orderAmount). -/
structure CreateResponse where
  orders : List Order
  cfOrderId : Nat
  paymentSessionId : Nat
  orderAmount : Nat
deriving DecidableEq, Repr

/-- POST /api/corporate/orders.  session models createCashfreeOrder as
a function of the gateway order identifier and the order amount,
returning the payment session id or failing.  Validation happens before
any save; the per-seller orders are then persisted; the payment session
is requested for the sum of all per-order totals under the first
order's number as gateway identifier; on session failure the persisted
orders are left as saved (no rollback) and the route reports failure;
on success the gateway identifier and session id are back-filled onto
every order.  Returns the state after the call with the outcome. -/
def createOrder (gen : Nat → Nat) (baseId : Nat)
    (session : Nat → Nat → Except Unit Nat)
    (items : List ReqItem) (hasAddress : Bool) (email : Nat)
    (catalog : List CatalogEntry) (st : St) :
    St × Except CreateError CreateResponse :=
  if items.isEmpty then (st, .error .noItems)
  else if ¬ hasAddress then (st, .error .noShippingAddress)
  else
    match validateItems catalog st.products items [] with
    | .error e => (st, .error e)
    | .ok groups =>
      let newOrders := buildOrders gen baseId email 0 groups
      let st1 := { st with orders := st.orders ++ newOrders }
      let grandTotal := (newOrders.map (·.totalAmount)).sum
      let cfOrderId := ((newOrders.head?).map (·.orderNumber)).getD 0
      match session cfOrderId grandTotal with
      | .error _ => (st1, .error .sessionFailed)
      | .ok psId =>
        let finalOrders := newOrders.map
          (fun o => { o with cashfreeOrderId := some cfOrderId,
                             paymentSessionId := some psId })
        ({ st with orders := st.orders ++ finalOrders },
         .ok { orders := finalOrders, cfOrderId := cfOrderId,
               paymentSessionId := psId, orderAmount := grandTotal })

/-! ### Quote approval (POST /api/corporate/quotes/:id/approve) -/

/-- Errors of the quote-approve route. -/
inductive QuoteError where
  | quoteNotFound
  | quoteExpired
  | shippingAddressRequired
  | sessionFailed
deriving DecidableEq, Repr

/-- The query filter CorporateQuote.findOne({ _id: id, an owner clause
(corporateUserId or contactEmail), status: sent }). -/
def approveMatch (qid userId email : Nat) (q : Quote) : Bool :=
  q.id = qid ∧ (q.corporateUserId = userId ∨ q.contactEmail = email) ∧
    q.status = .sent

/-- Mongoose save of a quote document: replace the first document with
the same id. -/
def replaceQuote (q : Quote) : List Quote → List Quote
  | [] => []
  | x :: xs => if x.id = q.id then q :: xs else x :: replaceQuote q xs

/-- The order built from a quote's line items (sellerId 0 models the
null seller of quote-derived orders). -/
def orderFromQuote (orderNumber oid email : Nat) (q : Quote) : Order :=
  { id := oid, orderNumber := orderNumber, customerEmail := email,
    sellerId := 0,
    items := q.items.map (fun i =>
      { productId := i.productId, price := i.unitPrice,
        quantity := i.quantity, sellerId := 0 }),
    itemTotal := q.totalAmount,
    totalAmount := q.finalAmount,
    status := .pending, paymentStatus := .unpaid,
    cashfreeOrderId := none, paymentSessionId := none,
    cashfreePaymentId := none, paidAt := none, cancelledAt := none,
    cancelReason := none, refundId := none }

/-- POST /api/corporate/quotes/:id/approve.  The quote must be found in
sent status for this buyer; if its validity deadline has passed it is
transitioned to expired and saved, and the request fails with
QuoteExpired — an explicit side effect on failure.  Otherwise an order
is built from the quote, saved, a payment session is requested for the
quote's final amount, the gateway identifier and session id are stored
on the order, and the quote is transitioned to approved with a
back-reference to the order. -/
def approveQuote (qid userId email now : Nat) (hasAddress : Bool)
    (orderNumber newOrderId : Nat) (session : Nat → Nat → Except Unit Nat)
    (st : St) : St × Except QuoteError Order :=
  match st.quotes.find? (approveMatch qid userId email) with
  | none => (st, .error .quoteNotFound)
  | some q =>
    match q.validUntil with
    | some vu =>
      if vu < now then
        ({ st with quotes := replaceQuote { q with status := .expired } st.quotes },
         .error .quoteExpired)
      else approveQuoteBody qid userId email now hasAddress orderNumber newOrderId session st q
    | none => approveQuoteBody qid userId email now hasAddress orderNumber newOrderId session st q
where
  /-- The non-expired continuation of the route. -/
  approveQuoteBody (_qid _userId : Nat) (email _now : Nat) (hasAddress : Bool)
      (orderNumber newOrderId : Nat) (session : Nat → Nat → Except Unit Nat)
      (st : St) (q : Quote) : St × Except QuoteError Order :=
    if ¬ hasAddress then (st, .error .shippingAddressRequired)
    else
      let o := orderFromQuote orderNumber newOrderId email q
      let st1 := { st with orders := st.orders ++ [o] }
      match session orderNumber q.finalAmount with
      | .error _ => (st1, .error .sessionFailed)
      | .ok psId =>
        let o2 := { o with cashfreeOrderId := some orderNumber,
                           paymentSessionId := some psId }
        let st2 := { st1 with orders := replaceOrder o2 st1.orders }
        let q2 := { q with status := .approved, convertedOrderId := some newOrderId }
        ({ st2 with quotes := replaceQuote q2 st2.quotes }, .ok o2)

/-! ### Derived notions used by the statements -/

/-- The conserved quantity of claim C10: stock plus orderCount. -/
def prodSum (p : Product) : Int := p.stock + p.orderCount

/-- Success of a single conditional decrement: the product looked up by
id exists and has sufficient stock at this moment. -/
def canDec (pid qty : Nat) (ps : List Product) : Bool :=
  match findProduct pid ps with
  | some p => (qty : Int) ≤ p.stock
  | none => false

/-- Success of the whole reconciliation item loop: each item's
conditional decrement finds sufficient stock at its own turn. -/
def decsSucceed : List OrderItem → List Product → Bool
  | [], _ => true
  | i :: rest, ps =>
    canDec i.productId i.quantity ps &&
      decsSucceed rest (conditionalDecrement i.productId i.quantity ps)

/-- Order.findOne restricted to the id, as used to observe persisted
state. -/
def findOrderById (oid : Nat) (orders : List Order) : Option Order :=
  orders.find? (fun o => o.id = oid)

/-- CorporateQuote.findOne restricted to the id. -/
def findQuoteById (qid : Nat) (qs : List Quote) : Option Quote :=
  qs.find? (fun q => q.id = qid)

/-! ### Lemmas about the atomic product mutations -/

theorem conditionalDecrement_noop (pid qty : Nat) (ps : List Product)
    (h : ∀ p ∈ ps, p.id = pid → p.stock < (qty : Int)) :
    conditionalDecrement pid qty ps = ps := by
  induction ps with
  | nil => rfl
  | cons p ps ih =>
    have hp := h p (List.mem_cons_self _ _)
    rw [conditionalDecrement]
    rw [if_neg, ih (fun q hq => h q (List.mem_cons_of_mem _ hq))]
    rintro ⟨hid, hle⟩
    exact absurd (hp hid) (not_lt.mpr hle)

theorem conditionalDecrement_nonneg (pid qty : Nat) (ps : List Product)
    (h : ∀ p ∈ ps, 0 ≤ p.stock) :
    ∀ p ∈ conditionalDecrement pid qty ps, 0 ≤ p.stock := by
  induction ps with
  | nil => intro p hp; simp [conditionalDecrement] at hp
  | cons q ps ih =>
    intro p hp
    rw [conditionalDecrement] at hp
    split at hp
    · rcases List.mem_cons.mp hp with h1 | h1
      · subst h1
        simp only
        rename_i hcond
        omega
      · exact h p (List.mem_cons_of_mem _ h1)
    · rcases List.mem_cons.mp hp with h1 | h1
      · subst h1; exact h p (List.mem_cons_self _ _)
      · exact ih (fun r hr => h r (List.mem_cons_of_mem _ hr)) p h1

theorem conditionalDecrement_prodSum (pid qty : Nat) (ps : List Product) :
    (conditionalDecrement pid qty ps).map prodSum = ps.map prodSum := by
  induction ps with
  | nil => rfl
  | cons p ps ih =>
    rw [conditionalDecrement]
    split
    · simp only [List.map_cons, List.cons.injEq, prodSum]
      exact ⟨by omega, by trivial⟩
    · simp [ih]

theorem restoreIncrement_prodSum (pid qty : Nat) (ps : List Product) :
    (restoreIncrement pid qty ps).map prodSum = ps.map prodSum := by
  induction ps with
  | nil => rfl
  | cons p ps ih =>
    rw [restoreIncrement]
    split
    · simp only [List.map_cons, List.cons.injEq, prodSum]
      exact ⟨by omega, by trivial⟩
    · simp [ih]

theorem restoreIncrement_comm (pid qty pid' qty' : Nat) (ps : List Product) :
    restoreIncrement pid qty (restoreIncrement pid' qty' ps) =
      restoreIncrement pid' qty' (restoreIncrement pid qty ps) := by
  induction ps with
  | nil => rfl
  | cons p ps ih =>
    by_cases h2 : p.id = pid <;> by_cases h1 : p.id = pid'
    · have e : pid = pid' := h2.symm.trans h1
      subst e
      simp only [restoreIncrement, if_pos h2, if_pos (show Product.id _ = pid from h2)]
      simp [Product.mk.injEq]
      omega
    · have hne : pid ≠ pid' := fun e => h1 (h2.trans e)
      simp [restoreIncrement, h1, h2, hne]
    · have hne : pid' ≠ pid := fun e => h2 (h1.trans e)
      simp [restoreIncrement, h1, h2, hne]
    · simp [restoreIncrement, h1, h2, ih]

theorem restoreIncrement_conditionalDecrement (pid qty : Nat)
    (ps : List Product) (h : canDec pid qty ps = true) :
    restoreIncrement pid qty (conditionalDecrement pid qty ps) = ps := by
  induction ps with
  | nil => simp [canDec, findProduct] at h
  | cons p ps ih =>
    by_cases hid : p.id = pid
    · have hle : (qty : Int) ≤ p.stock := by
        simp [canDec, findProduct, hid] at h
        simpa [hid] using h
      rw [conditionalDecrement, if_pos ⟨hid, hle⟩, restoreIncrement, if_pos hid]
      simp
    · have h' : canDec pid qty ps = true := by
        simpa [canDec, findProduct, hid] using h
      rw [conditionalDecrement, if_neg (by rintro ⟨h1, _⟩; exact hid h1),
        restoreIncrement, if_neg hid, ih h']

/-! ### Lemmas about the per-item loops -/

theorem decrementItems_nil (ps : List Product) : decrementItems [] ps = ps := rfl

theorem decrementItems_cons (i : OrderItem) (items : List OrderItem)
    (ps : List Product) :
    decrementItems (i :: items) ps =
      decrementItems items (conditionalDecrement i.productId i.quantity ps) := rfl

theorem restoreItems_nil (ps : List Product) : restoreItems [] ps = ps := rfl

theorem restoreItems_cons (i : OrderItem) (items : List OrderItem)
    (ps : List Product) :
    restoreItems (i :: items) ps =
      restoreItems items (restoreIncrement i.productId i.quantity ps) := rfl

theorem decrementItems_nonneg (items : List OrderItem) (ps : List Product)
    (h : ∀ p ∈ ps, 0 ≤ p.stock) :
    ∀ p ∈ decrementItems items ps, 0 ≤ p.stock := by
  induction items generalizing ps with
  | nil => exact h
  | cons i items ih =>
    rw [decrementItems_cons]
    exact ih _ (conditionalDecrement_nonneg _ _ _ h)

theorem decrementItems_prodSum (items : List OrderItem) (ps : List Product) :
    (decrementItems items ps).map prodSum = ps.map prodSum := by
  induction items generalizing ps with
  | nil => rfl
  | cons i items ih =>
    rw [decrementItems_cons, ih, conditionalDecrement_prodSum]

theorem restoreItems_prodSum (items : List OrderItem) (ps : List Product) :
    (restoreItems items ps).map prodSum = ps.map prodSum := by
  induction items generalizing ps with
  | nil => rfl
  | cons i items ih =>
    rw [restoreItems_cons, ih, restoreIncrement_prodSum]

theorem restoreItems_restoreIncrement (pid qty : Nat) (items : List OrderItem)
    (ps : List Product) :
    restoreItems items (restoreIncrement pid qty ps) =
      restoreIncrement pid qty (restoreItems items ps) := by
  induction items generalizing ps with
  | nil => rfl
  | cons i items ih =>
    rw [restoreItems_cons, restoreItems_cons, restoreIncrement_comm, ih]

/-- The inverse law behind amended claim C3: when every conditional
decrement of the reconciliation loop succeeds, the cancellation loop
restores the product collection exactly. -/
theorem restoreItems_decrementItems (items : List OrderItem)
    (ps : List Product) (h : decsSucceed items ps = true) :
    restoreItems items (decrementItems items ps) = ps := by
  induction items generalizing ps with
  | nil => rfl
  | cons i items ih =>
    rw [decsSucceed, Bool.and_eq_true] at h
    rw [decrementItems_cons, restoreItems_cons, restoreItems_restoreIncrement,
      ih _ h.2, restoreIncrement_conditionalDecrement _ _ _ h.1]

/-! ### Lemmas about the reconciliation loop -/

theorem payOrder_paymentStatus (payRef : Option Nat) (now : Nat) (o : Order)
    (ps : List Product) : (payOrder payRef now o ps).1.paymentStatus = .paid := by
  unfold payOrder
  split
  · simpa using (by assumption : o.paymentStatus = .paid)
  · rfl

theorem payOrder_matches (orderId email : Nat) (payRef : Option Nat) (now : Nat)
    (o : Order) (ps : List Product) :
    matchesVerify orderId email (payOrder payRef now o ps).1 =
      matchesVerify orderId email o := by
  unfold payOrder
  split
  · rfl
  · simp [matchesVerify]

theorem payOrder_skip (payRef : Option Nat) (now : Nat) (o : Order)
    (ps : List Product) (h : o.paymentStatus = .paid) :
    payOrder payRef now o ps = (o, ps) := by
  unfold payOrder
  rw [if_pos h]

theorem payOrder_products_nonneg (payRef : Option Nat) (now : Nat) (o : Order)
    (ps : List Product) (h : ∀ p ∈ ps, 0 ≤ p.stock) :
    ∀ p ∈ (payOrder payRef now o ps).2, 0 ≤ p.stock := by
  unfold payOrder
  split
  · exact h
  · exact decrementItems_nonneg _ _ h

theorem payOrder_prodSum (payRef : Option Nat) (now : Nat) (o : Order)
    (ps : List Product) :
    ((payOrder payRef now o ps).2).map prodSum = ps.map prodSum := by
  unfold payOrder
  split
  · rfl
  · exact decrementItems_prodSum _ _

theorem verifyLoop_products_nonneg (orderId email : Nat) (payRef : Option Nat)
    (now : Nat) (os : List Order) (ps : List Product)
    (h : ∀ p ∈ ps, 0 ≤ p.stock) :
    ∀ p ∈ (verifyLoop orderId email payRef now os ps).2, 0 ≤ p.stock := by
  induction os generalizing ps with
  | nil => exact h
  | cons o os ih =>
    rw [verifyLoop]
    split
    · exact ih _ (payOrder_products_nonneg _ _ _ _ h)
    · exact ih _ h

theorem verifyLoop_prodSum (orderId email : Nat) (payRef : Option Nat)
    (now : Nat) (os : List Order) (ps : List Product) :
    ((verifyLoop orderId email payRef now os ps).2).map prodSum =
      ps.map prodSum := by
  induction os generalizing ps with
  | nil => rfl
  | cons o os ih =>
    rw [verifyLoop]
    split
    · rw [ih, payOrder_prodSum]
    · rw [ih]

theorem verifyLoop_paid (orderId email : Nat) (payRef : Option Nat) (now : Nat)
    (os : List Order) (ps : List Product) :
    ∀ o ∈ (verifyLoop orderId email payRef now os ps).1,
      matchesVerify orderId email o = true → o.paymentStatus = .paid := by
  induction os generalizing ps with
  | nil => intro o ho; simp [verifyLoop] at ho
  | cons o os ih =>
    intro o' ho' hm
    rw [verifyLoop] at ho'
    split at ho'
    · rcases List.mem_cons.mp ho' with h1 | h1
      · subst h1; exact payOrder_paymentStatus _ _ _ _
      · exact ih _ o' h1 hm
    · rcases List.mem_cons.mp ho' with h1 | h1
      · subst h1
        rename_i hnm
        exact absurd hm (by simpa using hnm)
      · exact ih _ o' h1 hm

theorem verifyLoop_filter_isEmpty (orderId email : Nat) (payRef : Option Nat)
    (now : Nat) (os : List Order) (ps : List Product) :
    ((verifyLoop orderId email payRef now os ps).1.filter
        (matchesVerify orderId email)).isEmpty =
      (os.filter (matchesVerify orderId email)).isEmpty := by
  induction os generalizing ps with
  | nil => rfl
  | cons o os ih =>
    rw [verifyLoop]
    split
    · rename_i hm
      rw [List.filter_cons, List.filter_cons, payOrder_matches, hm]
      simp
    · rename_i hnm
      have hnm' : matchesVerify orderId email o = false := by simpa using hnm
      rw [List.filter_cons, List.filter_cons, hnm']
      simp [ih]

theorem verifyLoop_id (orderId email : Nat) (payRef : Option Nat) (now : Nat)
    (os : List Order) (ps : List Product)
    (h : ∀ o ∈ os, matchesVerify orderId email o = true →
      o.paymentStatus = .paid) :
    verifyLoop orderId email payRef now os ps = (os, ps) := by
  induction os generalizing ps with
  | nil => rfl
  | cons o os ih =>
    rw [verifyLoop]
    split
    · rename_i hm
      simp only [payOrder_skip _ _ _ _ (h o (List.mem_cons_self _ _) hm),
        ih _ (fun x hx => h x (List.mem_cons_of_mem _ hx))]
    · simp only [ih _ (fun x hx => h x (List.mem_cons_of_mem _ hx))]

/-- Inversion of a successful verify-payment call. -/
theorem verifyPayment_ok_inv (gs : CfOrderStatus) (pays : List CfPayment)
    (orderId email now : Nat) (st st' : St)
    (h : verifyPayment gs pays orderId email now st = .ok st') :
    gs = .PAID ∧
    (st.orders.filter (matchesVerify orderId email)).isEmpty = false ∧
    st'.orders =
      (verifyLoop orderId email (gwPayRef pays) now st.orders st.products).1 ∧
    st'.products =
      (verifyLoop orderId email (gwPayRef pays) now st.orders st.products).2 ∧
    st'.quotes = st.quotes := by
  unfold verifyPayment at h
  split at h
  · exact absurd h (by simp)
  · rename_i hgs
    have hgs' : gs = .PAID := not_not.mp hgs
    split at h
    · exact absurd h (by simp)
    · rename_i hne
      have hne' : (st.orders.filter (matchesVerify orderId email)).isEmpty = false := by
        simpa using hne
      refine ⟨hgs', hne', ?_, ?_, ?_⟩ <;>
        · injection h with h'
          rw [← h']

/-! ### Concrete states used by witnesses and counterexamples

The scenario of the spec's end-to-end test: product A (id 1, seller 10,
corporate price 100), ordered 5 times by buyer 7, and product B (id 2,
seller 20, base price 50), ordered 3 times, both orders sharing gateway
order identifier 100 and payment session 1650. -/

def wProdA : Product :=
  { id := 1, sellerId := 10, price := 120, stock := 20, orderCount := 0, isActive := true }

def wProdB : Product :=
  { id := 2, sellerId := 20, price := 50, stock := 7, orderCount := 0, isActive := true }

def wOrder1 : Order :=
  { id := 500, orderNumber := 100, customerEmail := 7, sellerId := 10,
    items := [{ productId := 1, price := 100, quantity := 5, sellerId := 10 }],
    itemTotal := 500, totalAmount := 500, status := .pending, paymentStatus := .unpaid,
    cashfreeOrderId := some 100, paymentSessionId := some 1650,
    cashfreePaymentId := none, paidAt := none, cancelledAt := none,
    cancelReason := none, refundId := none }

def wOrder2 : Order :=
  { id := 501, orderNumber := 101, customerEmail := 7, sellerId := 20,
    items := [{ productId := 2, price := 50, quantity := 3, sellerId := 20 }],
    itemTotal := 150, totalAmount := 150, status := .pending, paymentStatus := .unpaid,
    cashfreeOrderId := some 100, paymentSessionId := some 1650,
    cashfreePaymentId := none, paidAt := none, cancelledAt := none,
    cancelReason := none, refundId := none }

def wSt : St := { orders := [wOrder1, wOrder2], products := [wProdA, wProdB], quotes := [] }

/-- The first order as updated by reconciliation of gateway order 100
at time 50 with payment reference 777. -/
def wStPaid1 : Order :=
  { wOrder1 with status := .confirmed, paymentStatus := .paid,
                 cashfreePaymentId := some 777, paidAt := some 50 }

/-- The state after reconciliation of gateway order 100 at time 50 with
payment reference 777. -/
def wStPaid : St :=
  { orders :=
      [wStPaid1,
       { wOrder2 with status := .confirmed, paymentStatus := .paid,
                      cashfreePaymentId := some 777, paidAt := some 50 }],
    products :=
      [{ wProdA with stock := 15, orderCount := 5 },
       { wProdB with stock := 4, orderCount := 3 }],
    quotes := [] }

/-! ### Claim theorems: payment reconciliation -/

/-- Claim C1: during payment reconciliation the stock decrement is
conditional — when every product carrying the item's id has stock below
the item quantity the decrement (with its paired orderCount increment)
is a no-op — and reconciliation preserves non-negativity of every
product's stock. -/
theorem claim_C1 :
    (∀ (pid qty : Nat) (ps : List Product),
      (∀ p ∈ ps, p.id = pid → p.stock < (qty : Int)) →
      conditionalDecrement pid qty ps = ps) ∧
    (∀ gs pays orderId email now st st',
      verifyPayment gs pays orderId email now st = .ok st' →
      (∀ p ∈ st.products, 0 ≤ p.stock) →
      ∀ p ∈ st'.products, 0 ≤ p.stock) := by
  refine ⟨conditionalDecrement_noop, ?_⟩
  intro gs pays orderId email now st st' h hpos
  obtain ⟨-, -, -, hp, -⟩ := verifyPayment_ok_inv _ _ _ _ _ _ _ h
  rw [hp]
  exact verifyLoop_products_nonneg _ _ _ _ _ _ hpos

theorem claim_C1_witness :
    conditionalDecrement 1 25 [wProdA] = [wProdA] ∧
    ∀ p ∈ wStPaid.products, 0 ≤ p.stock :=
  ⟨claim_C1.1 1 25 [wProdA] (by decide),
   claim_C1.2 .PAID [⟨.SUCCESS, 777⟩] 100 7 50 wSt wStPaid (by decide) (by decide)⟩

/-- Claim C2: payment reconciliation is idempotent — after a successful
verify-payment call for a gateway order identifier, a second call for
the same identifier and buyer (the gateway still reporting PAID)
succeeds and leaves the entire state unchanged, because every matching
order is already paid and is skipped. -/
theorem claim_C2 (gs : CfOrderStatus) (pays pays2 : List CfPayment)
    (orderId email now now2 : Nat) (st st1 : St)
    (h : verifyPayment gs pays orderId email now st = .ok st1) :
    verifyPayment .PAID pays2 orderId email now2 st1 = .ok st1 := by
  obtain ⟨-, hne, ho, -, -⟩ := verifyPayment_ok_inv _ _ _ _ _ _ _ h
  have hpaid : ∀ o ∈ st1.orders, matchesVerify orderId email o = true →
      o.paymentStatus = .paid := by
    rw [ho]; exact verifyLoop_paid _ _ _ _ _ _
  have hid := verifyLoop_id orderId email (gwPayRef pays2) now2 st1.orders
    st1.products hpaid
  unfold verifyPayment
  rw [if_neg (by simp)]
  rw [if_neg (by rw [ho, verifyLoop_filter_isEmpty, hne]; simp)]
  simp only [hid]

theorem claim_C2_witness :
    verifyPayment .PAID [] 100 7 60 wStPaid = .ok wStPaid :=
  claim_C2 .PAID [⟨.SUCCESS, 777⟩] [] 100 7 50 60 wSt wStPaid (by decide)

/-! ### Lemmas about cancellation -/

theorem findOrder_replaceOrder (oid email : Nat) (o o2 : Order)
    (orders : List Order) (hf : findOrder oid email orders = some o)
    (hid : o2.id = oid) (hem : o2.customerEmail = email) :
    findOrder oid email (replaceOrder o2 orders) = some o2 := by
  induction orders with
  | nil => simp [findOrder] at hf
  | cons x xs ih =>
    by_cases hx : x.id = o2.id
    · rw [replaceOrder, if_pos hx]
      unfold findOrder
      rw [List.find?_cons_of_pos _ (by simp [hid, hem])]
    · rw [replaceOrder, if_neg hx]
      have hpx : ¬ (x.id = oid ∧ x.customerEmail = email) :=
        fun hc => hx (hc.1.trans hid.symm)
      unfold findOrder at hf ⊢
      rw [List.find?_cons_of_neg _ (by simpa using hpx)] at hf
      rw [List.find?_cons_of_neg _ (by simpa using hpx)]
      exact ih hf

theorem findOrder_props (oid email : Nat) (o : Order) (orders : List Order)
    (hf : findOrder oid email orders = some o) :
    o.id = oid ∧ o.customerEmail = email := by
  have := List.find?_some hf
  simpa using this

/-- Inversion of a successful cancellation on the products component:
either the order was not paid and products are untouched, or the
restore loop ran over the cancelled order's items. -/
theorem cancelOrder_ok_products (oid email : Nat) (reason : Option Nat)
    (refundOk : Bool) (now : Nat) (st st' : St)
    (h : cancelOrder oid email reason refundOk now st = .ok st') :
    st'.products = st.products ∨
      ∃ o, findOrder oid email st.orders = some o ∧
        st'.products = restoreItems o.items st.products := by
  unfold cancelOrder at h
  split at h
  · exact absurd h (by simp)
  · rename_i o ho
    split at h
    · exact absurd h (by simp)
    · simp only [] at h
      split at h
      · right
        exact ⟨o, ho, by injection h with h'; rw [← h']⟩
      · left
        injection h with h'
        rw [← h']

/-! ### Claim theorems: conservation, cancellation, inverse restoration -/

/-- Claim C10: stock + orderCount is conserved, product by product, by
the conditional decrement, by the unconditional restore, and hence by
every successful payment reconciliation and cancellation. -/
theorem claim_C10 :
    (∀ (pid qty : Nat) (ps : List Product),
      (conditionalDecrement pid qty ps).map prodSum = ps.map prodSum) ∧
    (∀ (pid qty : Nat) (ps : List Product),
      (restoreIncrement pid qty ps).map prodSum = ps.map prodSum) ∧
    (∀ gs pays orderId email now st st',
      verifyPayment gs pays orderId email now st = .ok st' →
      st'.products.map prodSum = st.products.map prodSum) ∧
    (∀ oid email reason refundOk now st st',
      cancelOrder oid email reason refundOk now st = .ok st' →
      st'.products.map prodSum = st.products.map prodSum) := by
  refine ⟨conditionalDecrement_prodSum, restoreIncrement_prodSum, ?_, ?_⟩
  · intro gs pays orderId email now st st' h
    obtain ⟨-, -, -, hp, -⟩ := verifyPayment_ok_inv _ _ _ _ _ _ _ h
    rw [hp, verifyLoop_prodSum]
  · intro oid email reason refundOk now st st' h
    rcases cancelOrder_ok_products _ _ _ _ _ _ _ h with hp | ⟨o, -, hp⟩
    · rw [hp]
    · rw [hp, restoreItems_prodSum]

/-- The state after cancelling the first witness order with a failing
refund at time 70. -/
def wStCancel : St :=
  { orders :=
      [{ wStPaid1 with status := .cancelled, cancelledAt := some 70,
                       cancelReason := some 0, paymentStatus := .refundPending },
       { wOrder2 with status := .confirmed, paymentStatus := .paid,
                      cashfreePaymentId := some 777, paidAt := some 50 }],
    products := [wProdA, { wProdB with stock := 4, orderCount := 3 }],
    quotes := [] }

theorem claim_C10_witness :
    wStPaid.products.map prodSum = wSt.products.map prodSum ∧
    wStCancel.products.map prodSum = wStPaid.products.map prodSum :=
  ⟨claim_C10.2.2.1 .PAID [⟨.SUCCESS, 777⟩] 100 7 50 wSt wStPaid (by decide),
   claim_C10.2.2.2 500 7 none false 70 wStPaid wStCancel (by decide)⟩

/-- The cancelled form of a paid order o as written by the cancel
route: status cancelled with timestamp and reason, then the refund
outcome applied (refunded with a fresh refund identifier, or
refund_pending). -/
def cancelledPaidOrder (o : Order) (reason : Option Nat) (refundOk : Bool)
    (now : Nat) : Order :=
  let o1 := { o with status := OrderStatus.cancelled, cancelledAt := some now,
                     cancelReason := some (reason.getD 0) }
  if refundOk then
    { o1 with paymentStatus := .refunded,
              refundId := some (mkRefundId o1.orderNumber now) }
  else
    { o1 with paymentStatus := .refundPending }

/-- Forward computation of a successful cancellation of a paid order. -/
theorem cancelOrder_paid_eq (oid email : Nat) (reason : Option Nat)
    (refundOk : Bool) (now : Nat) (st : St) (o : Order)
    (hf : findOrder oid email st.orders = some o)
    (hs : o.status = .pending ∨ o.status = .confirmed)
    (hp : o.paymentStatus = .paid) :
    cancelOrder oid email reason refundOk now st =
      .ok { st with
        orders := replaceOrder (cancelledPaidOrder o reason refundOk now) st.orders,
        products := restoreItems o.items st.products } := by
  rcases hs with h1 | h1 <;> cases refundOk <;>
    simp [cancelOrder, hf, h1, hp, cancelledPaidOrder]

/-- Claim C6 (as stated): cancelling a paid order always succeeds and
lands it in status cancelled; a successful gateway refund stores
payment status refunded together with the freshly minted refund
identifier, a failed refund stores refund_pending and never refunded. -/
theorem claim_C6 (oid email : Nat) (reason : Option Nat) (refundOk : Bool)
    (now : Nat) (st : St) (o : Order)
    (hf : findOrder oid email st.orders = some o)
    (hs : o.status = .pending ∨ o.status = .confirmed)
    (hp : o.paymentStatus = .paid) :
    ∃ st' o', cancelOrder oid email reason refundOk now st = .ok st' ∧
      findOrder oid email st'.orders = some o' ∧
      o'.status = .cancelled ∧
      (refundOk = true → o'.paymentStatus = .refunded ∧
        o'.refundId = some (mkRefundId o.orderNumber now)) ∧
      (refundOk = false → o'.paymentStatus = .refundPending ∧
        o'.paymentStatus ≠ .refunded) := by
  obtain ⟨hoid, hoem⟩ := findOrder_props _ _ _ _ hf
  refine ⟨_, cancelledPaidOrder o reason refundOk now,
    cancelOrder_paid_eq _ _ _ _ _ _ _ hf hs hp, ?_, ?_, ?_, ?_⟩
  · exact findOrder_replaceOrder _ _ o _ _ hf
      (by cases refundOk <;> simp [cancelledPaidOrder, hoid])
      (by cases refundOk <;> simp [cancelledPaidOrder, hoem])
  · cases refundOk <;> simp [cancelledPaidOrder]
  · intro h
    subst h
    simp [cancelledPaidOrder, mkRefundId]
  · intro h
    subst h
    simp [cancelledPaidOrder]

theorem claim_C6_witness :
    ∃ st' o', cancelOrder 500 7 none false 70 wStPaid = .ok st' ∧
      findOrder 500 7 st'.orders = some o' ∧
      o'.status = .cancelled ∧
      (false = true → o'.paymentStatus = .refunded ∧
        o'.refundId = some (mkRefundId wStPaid1.orderNumber 70)) ∧
      (false = false → o'.paymentStatus = .refundPending ∧
        o'.paymentStatus ≠ .refunded) :=
  claim_C6 500 7 none false 70 wStPaid wStPaid1 (by decide) (by decide) (by decide)

/-! ### Claim C3: cancellation as inverse of reconciliation -/

/-- A paid order over a product whose stock (0) is below the ordered
quantity (1): the reconciliation decrement is a no-op here. -/
def cexProd : Product :=
  { id := 1, sellerId := 10, price := 10, stock := 0, orderCount := 0, isActive := true }

def cexOrder : Order :=
  { id := 40, orderNumber := 9, customerEmail := 7, sellerId := 10,
    items := [{ productId := 1, price := 10, quantity := 1, sellerId := 10 }],
    itemTotal := 10, totalAmount := 10, status := .pending, paymentStatus := .unpaid,
    cashfreeOrderId := some 9, paymentSessionId := some 3, cashfreePaymentId := none,
    paidAt := none, cancelledAt := none, cancelReason := none, refundId := none }

def cexSt : St := { orders := [cexOrder], products := [cexProd], quotes := [] }

def cexStPaid : St :=
  { orders :=
      [{ cexOrder with status := .confirmed, paymentStatus := .paid,
                       cashfreePaymentId := some 1, paidAt := some 5 }],
    products := [cexProd], quotes := [] }

def cexStCancelled : St :=
  { orders :=
      [{ cexOrder with status := .cancelled, paymentStatus := .refunded,
                       cashfreePaymentId := some 1, paidAt := some 5,
                       cancelledAt := some 6, cancelReason := some 0,
                       refundId := some (9, 6) }],
    products := [{ cexProd with stock := 1, orderCount := -1 }], quotes := [] }

/-- Counterexample to claim C3 as stated: reconciliation of a paid
gateway order over a product with stock 0 removes nothing from stock
(the conditional decrement is a no-op), yet cancelling the now-paid
order increments stock to 1 and decrements orderCount to -1 — the
restored delta differs from the removed delta. -/
theorem claim_C3_cex :
    verifyPayment .PAID [⟨.SUCCESS, 1⟩] 9 7 5 cexSt = .ok cexStPaid ∧
    cexStPaid.products = cexSt.products ∧
    cancelOrder 40 7 none true 6 cexStPaid = .ok cexStCancelled ∧
    (findProduct 1 cexSt.products).map Product.stock = some 0 ∧
    (findProduct 1 cexStCancelled.products).map Product.stock = some 1 ∧
    (findProduct 1 cexStCancelled.products).map Product.orderCount = some (-1) := by
  decide

/-- Claim C3, amended: when every line item's conditional decrement
finds sufficient stock during reconciliation, cancellation restores
exactly the delta that reconciliation removed — the restore loop
inverts the decrement loop, and across a verify-payment of a
single-order gateway identifier followed by cancellation of that order
the product collection returns to its initial state. -/
theorem claim_C3 :
    (∀ (items : List OrderItem) (ps : List Product),
      decsSucceed items ps = true →
      restoreItems items (decrementItems items ps) = ps) ∧
    (∀ gs pays orderId email now (reason : Option Nat) (refundOk : Bool) now2
      (o : Order) (st st1 st2 : St),
      st.orders = [o] →
      matchesVerify orderId email o = true →
      o.paymentStatus ≠ .paid →
      decsSucceed o.items st.products = true →
      verifyPayment gs pays orderId email now st = .ok st1 →
      cancelOrder o.id email reason refundOk now2 st1 = .ok st2 →
      st2.products = st.products) := by
  refine ⟨restoreItems_decrementItems, ?_⟩
  intro gs pays orderId email now reason refundOk now2 o st st1 st2
    hone hm hnp hd hv hc
  have hoem : o.customerEmail = email := by
    simp [matchesVerify] at hm
    exact hm.2
  obtain ⟨-, -, ho1, hp1, -⟩ := verifyPayment_ok_inv _ _ _ _ _ _ _ hv
  rw [hone] at ho1 hp1
  have hloop : verifyLoop orderId email (gwPayRef pays) now [o] st.products =
      ([{ o with paymentStatus := .paid, status := .confirmed,
                 cashfreePaymentId := gwPayRef pays, paidAt := some now }],
       decrementItems o.items st.products) := by
    simp [verifyLoop, hm, payOrder, hnp]
  rw [hloop] at ho1 hp1
  have hfind : findOrder o.id email st1.orders =
      some { o with paymentStatus := .paid, status := .confirmed,
                    cashfreePaymentId := gwPayRef pays, paidAt := some now } := by
    rw [ho1]
    simp [findOrder, hoem]
  have heq := cancelOrder_paid_eq o.id email reason refundOk now2 st1 _
    hfind (Or.inr rfl) rfl
  rw [heq] at hc
  injection hc with hc'
  rw [← hc']
  simp only [hp1]
  exact restoreItems_decrementItems _ _ hd

/-- Single-order witness scenario for claim C3. -/
def w3St : St := { orders := [wOrder1], products := [wProdA], quotes := [] }

def w3StPaid : St :=
  { orders := [wStPaid1],
    products := [{ wProdA with stock := 15, orderCount := 5 }],
    quotes := [] }

def w3StCancelled : St :=
  { orders :=
      [{ wStPaid1 with status := .cancelled, cancelledAt := some 70,
                       cancelReason := some 0, paymentStatus := .refunded,
                       refundId := some (100, 70) }],
    products := [wProdA], quotes := [] }

theorem claim_C3_witness :
    restoreItems wOrder1.items (decrementItems wOrder1.items [wProdA]) = [wProdA] ∧
    w3StCancelled.products = w3St.products :=
  ⟨claim_C3.1 wOrder1.items [wProdA] (by decide),
   claim_C3.2 .PAID [⟨.SUCCESS, 777⟩] 100 7 50 none true 70 wOrder1
     w3St w3StPaid w3StCancelled rfl (by decide) (by decide) (by decide)
     (by decide) (by decide)⟩

/-! ### Lemmas about order assembly -/

theorem addToGroups_keys_mem (sid : Nat) (ri : ResolvedItem)
    (gs : SellerGroups) (s : Nat) :
    s ∈ (addToGroups sid ri gs).map Prod.fst ↔
      s = sid ∨ s ∈ gs.map Prod.fst := by
  induction gs with
  | nil => simp [addToGroups]
  | cons g gs ih =>
    by_cases hg : g.1 = sid
    · rw [show (g :: gs : SellerGroups) = (g.1, g.2) :: gs from rfl,
        addToGroups, if_pos hg]
      simp [hg]
    · rw [show (g :: gs : SellerGroups) = (g.1, g.2) :: gs from rfl,
        addToGroups, if_neg hg]
      simp [ih]
      tauto

theorem addToGroups_keys_nodup (sid : Nat) (ri : ResolvedItem)
    (gs : SellerGroups) (h : (gs.map Prod.fst).Nodup) :
    ((addToGroups sid ri gs).map Prod.fst).Nodup := by
  induction gs with
  | nil => simp [addToGroups]
  | cons g gs ih =>
    rw [List.map_cons, List.nodup_cons] at h
    by_cases hg : g.1 = sid
    · rw [show (g :: gs : SellerGroups) = (g.1, g.2) :: gs from rfl,
        addToGroups, if_pos hg]
      simpa using And.intro h.1 h.2
    · rw [show (g :: gs : SellerGroups) = (g.1, g.2) :: gs from rfl,
        addToGroups, if_neg hg]
      rw [List.map_cons, List.nodup_cons]
      refine ⟨?_, ih h.2⟩
      rw [addToGroups_keys_mem]
      rintro (h1 | h1)
      · exact hg h1
      · exact h.1 h1

theorem addToGroups_ne_nil (sid : Nat) (ri : ResolvedItem) (gs : SellerGroups) :
    addToGroups sid ri gs ≠ [] := by
  cases gs with
  | nil => simp [addToGroups]
  | cons g gs =>
    rw [show (g :: gs : SellerGroups) = (g.1, g.2) :: gs from rfl, addToGroups]
    split <;> simp

theorem validateItems_keys_nodup (catalog : List CatalogEntry)
    (products : List Product) (its : List ReqItem) (acc gs : SellerGroups)
    (h : validateItems catalog products its acc = .ok gs)
    (hn : (acc.map Prod.fst).Nodup) : (gs.map Prod.fst).Nodup := by
  induction its generalizing acc with
  | nil =>
    rw [validateItems] at h
    injection h with h'
    rwa [← h']
  | cons it rest ih =>
    rw [validateItems] at h
    split at h
    · exact absurd h (by simp)
    · exact ih _ h (addToGroups_keys_nodup _ _ _ hn)

theorem validateItems_keys_iff (catalog : List CatalogEntry)
    (products : List Product) (its : List ReqItem) (acc gs : SellerGroups)
    (h : validateItems catalog products its acc = .ok gs) (s : Nat) :
    s ∈ gs.map Prod.fst ↔ s ∈ acc.map Prod.fst ∨
      ∃ it ∈ its, ∃ ri, resolveItem catalog products it = .ok ri ∧
        ri.product.sellerId = s := by
  induction its generalizing acc with
  | nil =>
    rw [validateItems] at h
    injection h with h'
    subst h'
    simp
  | cons it rest ih =>
    rw [validateItems] at h
    split at h
    · exact absurd h (by simp)
    · rename_i ri hre
      rw [ih _ h, addToGroups_keys_mem]
      constructor
      · rintro ((h1 | h1) | h1)
        · exact Or.inr ⟨it, List.mem_cons_self _ _, ri, hre, h1.symm⟩
        · exact Or.inl h1
        · obtain ⟨x, hx, rx, hrx, hsx⟩ := h1
          exact Or.inr ⟨x, List.mem_cons_of_mem _ hx, rx, hrx, hsx⟩
      · rintro (h1 | ⟨x, hx, rx, hrx, hsx⟩)
        · exact Or.inl (Or.inr h1)
        · rcases List.mem_cons.mp hx with h2 | h2
          · subst h2
            rw [hre] at hrx
            injection hrx with h3
            subst h3
            exact Or.inl (Or.inl hsx.symm)
          · exact Or.inr ⟨x, h2, rx, hrx, hsx⟩

theorem validateItems_acc_ne_nil (catalog : List CatalogEntry)
    (products : List Product) (its : List ReqItem) (acc gs : SellerGroups)
    (h : validateItems catalog products its acc = .ok gs) (ha : acc ≠ []) :
    gs ≠ [] := by
  induction its generalizing acc with
  | nil =>
    rw [validateItems] at h
    injection h with h'
    rwa [← h']
  | cons it rest ih =>
    rw [validateItems] at h
    split at h
    · exact absurd h (by simp)
    · exact ih _ h (addToGroups_ne_nil _ _ _)

theorem validateItems_ne_nil (catalog : List CatalogEntry)
    (products : List Product) (its : List ReqItem) (gs : SellerGroups)
    (h : validateItems catalog products its [] = .ok gs) (hi : its ≠ []) :
    gs ≠ [] := by
  cases its with
  | nil => exact absurd rfl hi
  | cons it rest =>
    rw [validateItems] at h
    split at h
    · exact absurd h (by simp)
    · exact validateItems_acc_ne_nil _ _ _ _ _ h (addToGroups_ne_nil _ _ _)

theorem buildOrders_sellerIds (gen : Nat → Nat) (baseId email idx : Nat)
    (gs : SellerGroups) :
    (buildOrders gen baseId email idx gs).map Order.sellerId =
      gs.map Prod.fst := by
  induction gs generalizing idx with
  | nil => rfl
  | cons g gs ih =>
    rw [show (g :: gs : SellerGroups) = (g.1, g.2) :: gs from rfl, buildOrders]
    simp [mkOrder, ih]

theorem buildOrders_mem (gen : Nat → Nat) (baseId email idx : Nat)
    (gs : SellerGroups) :
    ∀ o ∈ buildOrders gen baseId email idx gs,
      o.status = .pending ∧ o.paymentStatus = .unpaid ∧
      o.cashfreeOrderId = none ∧ o.paymentSessionId = none ∧
      o.totalAmount = (o.items.map (fun i => i.price * i.quantity)).sum := by
  induction gs generalizing idx with
  | nil => intro o ho; simp [buildOrders] at ho
  | cons g gs ih =>
    intro o ho
    rw [show (g :: gs : SellerGroups) = (g.1, g.2) :: gs from rfl,
      buildOrders] at ho
    rcases List.mem_cons.mp ho with h1 | h1
    · subst h1
      refine ⟨rfl, rfl, rfl, rfl, ?_⟩
      simp [mkOrder, mkOrderItem, List.map_map, Function.comp_def]
    · exact ih _ o h1

theorem buildOrders_ne_nil (gen : Nat → Nat) (baseId email idx : Nat)
    (gs : SellerGroups) (h : gs ≠ []) :
    buildOrders gen baseId email idx gs ≠ [] := by
  cases gs with
  | nil => exact absurd rfl h
  | cons g gs =>
    rw [show (g :: gs : SellerGroups) = (g.1, g.2) :: gs from rfl, buildOrders]
    simp

/-- Inversion of a successful order assembly. -/
theorem createOrder_ok_inv (gen : Nat → Nat) (baseId : Nat)
    (session : Nat → Nat → Except Unit Nat) (items : List ReqItem)
    (hasAddress : Bool) (email : Nat) (catalog : List CatalogEntry)
    (st st2 : St) (resp : CreateResponse)
    (h : createOrder gen baseId session items hasAddress email catalog st =
      (st2, .ok resp)) :
    ∃ groups psId,
      validateItems catalog st.products items [] = .ok groups ∧
      items.isEmpty = false ∧ hasAddress = true ∧
      session
        (((buildOrders gen baseId email 0 groups).head?.map Order.orderNumber).getD 0)
        ((buildOrders gen baseId email 0 groups).map Order.totalAmount).sum = .ok psId ∧
      resp = { orders := (buildOrders gen baseId email 0 groups).map
                 (fun o => { o with
                   cashfreeOrderId := some (((buildOrders gen baseId email 0 groups).head?.map
                     Order.orderNumber).getD 0),
                   paymentSessionId := some psId }),
               cfOrderId := (((buildOrders gen baseId email 0 groups).head?.map
                 Order.orderNumber).getD 0),
               paymentSessionId := psId,
               orderAmount := ((buildOrders gen baseId email 0 groups).map
                 Order.totalAmount).sum } ∧
      st2 = { st with orders := st.orders ++ resp.orders } := by
  unfold createOrder at h
  split at h
  · exact absurd h (by simp)
  · split at h
    · exact absurd h (by simp)
    · rename_i hni hna
      split at h
      · exact absurd h (by simp)
      · rename_i groups hval
        simp only [] at h
        split at h
        · exact absurd h (by simp)
        · rename_i psId hsess
          simp only [Prod.mk.injEq] at h
          obtain ⟨hst, hr⟩ := h
          injection hr with hr
          refine ⟨groups, psId, hval, by simpa using hni, by simpa using hna,
            hsess, hr.symm, ?_⟩
          rw [← hst, ← hr]

/-- Claim C4: a successful multi-seller assembly creates one order per
distinct fulfilling seller (the seller list of the response has no
duplicates and covers exactly the sellers of the resolvable request
items), each order totals the sum of price times quantity over its own
items, every order carries the shared gateway order identifier and
payment session of the response, and the payment session is the one the
gateway returned for exactly the sum of the per-order totals. -/
theorem claim_C4 (gen : Nat → Nat) (baseId : Nat)
    (session : Nat → Nat → Except Unit Nat) (items : List ReqItem)
    (hasAddress : Bool) (email : Nat) (catalog : List CatalogEntry)
    (st st2 : St) (resp : CreateResponse)
    (h : createOrder gen baseId session items hasAddress email catalog st =
      (st2, .ok resp)) :
    (resp.orders.map Order.sellerId).Nodup ∧
    (∀ s, (∃ o ∈ resp.orders, o.sellerId = s) ↔
      (∃ it ∈ items, ∃ ri, resolveItem catalog st.products it = .ok ri ∧
        ri.product.sellerId = s)) ∧
    (∀ o ∈ resp.orders,
      o.totalAmount = (o.items.map (fun i => i.price * i.quantity)).sum ∧
      o.cashfreeOrderId = some resp.cfOrderId ∧
      o.paymentSessionId = some resp.paymentSessionId) ∧
    resp.orderAmount = (resp.orders.map Order.totalAmount).sum ∧
    session resp.cfOrderId resp.orderAmount = .ok resp.paymentSessionId ∧
    st2.orders = st.orders ++ resp.orders ∧
    st2.products = st.products ∧ st2.quotes = st.quotes := by
  obtain ⟨groups, psId, hval, hne, haddr, hsess, hresp, hst2⟩ :=
    createOrder_ok_inv _ _ _ _ _ _ _ _ _ _ h
  subst hresp
  subst hst2
  have hsellers : ∀ s : Nat,
      (((buildOrders gen baseId email 0 groups).map
        (fun o => { o with
          cashfreeOrderId := some (((buildOrders gen baseId email 0 groups).head?.map
            Order.orderNumber).getD 0),
          paymentSessionId := some psId })).map Order.sellerId) =
      groups.map Prod.fst := by
    intro s
    rw [List.map_map]
    exact buildOrders_sellerIds _ _ _ _ _
  refine ⟨?_, ?_, ?_, ?_, ?_, ?_, ?_, ?_⟩
  · show (List.map Order.sellerId _).Nodup
    rw [hsellers 0]
    exact validateItems_keys_nodup _ _ _ _ _ hval (by simp)
  · intro s
    have h1 : (∃ o ∈ (buildOrders gen baseId email 0 groups).map
        (fun o => { o with
          cashfreeOrderId := some (((buildOrders gen baseId email 0 groups).head?.map
            Order.orderNumber).getD 0),
          paymentSessionId := some psId }), o.sellerId = s) ↔
        s ∈ groups.map Prod.fst := by
      rw [← hsellers s]
      constructor
      · rintro ⟨o, ho, hos⟩
        exact List.mem_map.mpr ⟨o, ho, hos⟩
      · intro hs
        obtain ⟨o, ho, hos⟩ := List.mem_map.mp hs
        exact ⟨o, ho, hos⟩
    rw [show (CreateResponse.orders _) = _ from rfl] at *
    rw [h1, validateItems_keys_iff _ _ _ _ _ hval s]
    simp
  · intro o ho
    obtain ⟨b, hb, hbo⟩ := List.mem_map.mp ho
    obtain ⟨-, -, -, -, htot⟩ := buildOrders_mem _ _ _ _ _ b hb
    refine ⟨?_, ?_, ?_⟩
    · rw [← hbo]
      simpa using htot
    · rw [← hbo]
    · rw [← hbo]
  · rw [List.map_map]
    exact rfl
  · exact hsess
  · rfl
  · rfl
  · rfl

/-! ### Witness scenario for order assembly -/

def wItems : List ReqItem := [{ productId := 1, quantity := 5 }, { productId := 2, quantity := 3 }]

def wCeA : CatalogEntry :=
  { productId := 1, corporatePrice := some 100, minOrderQty := 2, maxOrderQty := 10, isActive := true }

def wCeB : CatalogEntry :=
  { productId := 2, corporatePrice := none, minOrderQty := 1, maxOrderQty := 5, isActive := true }

def wCatalog : List CatalogEntry := [wCeA, wCeB]

def wGen : Nat → Nat := fun i => 100 + i

def wSess : Nat → Nat → Except Unit Nat := fun _ amt => .ok (amt + 1000)

def wStInit : St := { orders := [], products := [wProdA, wProdB], quotes := [] }

def wResp : CreateResponse :=
  { orders := [wOrder1, wOrder2], cfOrderId := 100, paymentSessionId := 1650,
    orderAmount := 650 }

theorem claim_C4_witness :
    (wResp.orders.map Order.sellerId).Nodup ∧
    (∀ s, (∃ o ∈ wResp.orders, o.sellerId = s) ↔
      (∃ it ∈ wItems, ∃ ri, resolveItem wCatalog wStInit.products it = .ok ri ∧
        ri.product.sellerId = s)) ∧
    (∀ o ∈ wResp.orders,
      o.totalAmount = (o.items.map (fun i => i.price * i.quantity)).sum ∧
      o.cashfreeOrderId = some wResp.cfOrderId ∧
      o.paymentSessionId = some wResp.paymentSessionId) ∧
    wResp.orderAmount = (wResp.orders.map Order.totalAmount).sum ∧
    wSess wResp.cfOrderId wResp.orderAmount = .ok wResp.paymentSessionId ∧
    wSt.orders = wStInit.orders ++ wResp.orders ∧
    wSt.products = wStInit.products ∧ wSt.quotes = wStInit.quotes :=
  claim_C4 wGen 500 wSess wItems true 7 wCatalog wStInit wSt wResp (by decide)

/-! ### Claim C5: quantity out of range -/

theorem resolveItem_oob (catalog : List CatalogEntry) (products : List Product)
    (it : ReqItem) (ce : CatalogEntry)
    (hce : findCatalogEntry it.productId catalog = some ce) :
    (it.quantity < ce.minOrderQty →
      resolveItem catalog products it = .error (.belowMin ce.minOrderQty)) ∧
    (¬ it.quantity < ce.minOrderQty → ce.maxOrderQty < it.quantity →
      resolveItem catalog products it = .error (.aboveMax ce.maxOrderQty)) := by
  constructor
  · intro h1
    simp [resolveItem, hce, h1]
  · intro h1 h2
    simp [resolveItem, hce, h1, h2]

theorem validateItems_oob (catalog : List CatalogEntry) (products : List Product)
    (its : List ReqItem) (acc : SellerGroups)
    (hbad : ∃ it ∈ its, ∃ ce, findCatalogEntry it.productId catalog = some ce ∧
      (it.quantity < ce.minOrderQty ∨ ce.maxOrderQty < it.quantity)) :
    ∃ e, validateItems catalog products its acc = .error e := by
  induction its generalizing acc with
  | nil => simp at hbad
  | cons it rest ih =>
    rw [validateItems]
    match hre : resolveItem catalog products it with
    | .error e => exact ⟨e, rfl⟩
    | .ok ri =>
      obtain ⟨x, hx, ce, hce, hoob⟩ := hbad
      rcases List.mem_cons.mp hx with h1 | h1
      · subst h1
        rcases hoob with h2 | h2
        · rw [(resolveItem_oob _ _ _ _ hce).1 h2] at hre
          exact absurd hre (by simp)
        · by_cases h3 : x.quantity < ce.minOrderQty
          · rw [(resolveItem_oob _ _ _ _ hce).1 h3] at hre
            exact absurd hre (by simp)
          · rw [(resolveItem_oob _ _ _ _ hce).2 h3 h2] at hre
            exact absurd hre (by simp)
      · exact ih _ ⟨x, h1, ce, hce, hoob⟩

theorem validateItems_first_oob (catalog : List CatalogEntry)
    (products : List Product) (pre rest : List ReqItem) (bad : ReqItem)
    (acc : SellerGroups) (ce : CatalogEntry)
    (hpre : ∀ it ∈ pre, ∃ ri, resolveItem catalog products it = .ok ri)
    (hce : findCatalogEntry bad.productId catalog = some ce)
    (hoob : bad.quantity < ce.minOrderQty ∨ ce.maxOrderQty < bad.quantity) :
    validateItems catalog products (pre ++ bad :: rest) acc =
      .error (if bad.quantity < ce.minOrderQty then
        CreateError.belowMin ce.minOrderQty
      else CreateError.aboveMax ce.maxOrderQty) := by
  induction pre generalizing acc with
  | nil =>
    rw [List.nil_append, validateItems]
    by_cases h1 : bad.quantity < ce.minOrderQty
    · rw [(resolveItem_oob _ _ _ _ hce).1 h1, if_pos h1]
    · rcases hoob with h2 | h2
      · exact absurd h2 h1
      · rw [(resolveItem_oob _ _ _ _ hce).2 h1 h2, if_neg h1]
  | cons p pre ih =>
    rw [List.cons_append, validateItems]
    obtain ⟨ri, hri⟩ := hpre p (List.mem_cons_self _ _)
    rw [hri]
    exact ih _ (fun x hx => hpre x (List.mem_cons_of_mem _ hx))

/-- Counterexample to claim C5 as stated: a request whose second item
(product 1, quantity 1) is below its catalog minimum of 2, but whose
first item (product 99) is not in the catalog at all, fails with
NotInCatalog — not with a quantity error — though still persisting
nothing. -/
theorem claim_C5_cex :
    findCatalogEntry 1 wCatalog = some wCeA ∧ (1 < wCeA.minOrderQty) ∧
    createOrder wGen 500 wSess
        [{ productId := 99, quantity := 5 }, { productId := 1, quantity := 1 }]
        true 7 wCatalog wStInit =
      (wStInit, .error (.notInCatalog 99)) ∧
    CreateError.notInCatalog 99 ≠ CreateError.belowMin 2 ∧
    CreateError.notInCatalog 99 ≠ CreateError.aboveMax 10 := by
  decide

/-- Claim C5, amended: an assembly request containing an item whose
quantity violates its active catalog entry's [min, max] always fails
and persists nothing; the error is the QuantityOutOfRange error naming
the breached bound provided every item before the offending one passes
validation (the items are validated in request order and the first
failure wins). -/
theorem claim_C5 (gen : Nat → Nat) (baseId : Nat)
    (session : Nat → Nat → Except Unit Nat) (hasAddress : Bool) (email : Nat)
    (catalog : List CatalogEntry) (st : St) :
    (∀ items : List ReqItem,
      (∃ it ∈ items, ∃ ce, findCatalogEntry it.productId catalog = some ce ∧
        (it.quantity < ce.minOrderQty ∨ ce.maxOrderQty < it.quantity)) →
      (createOrder gen baseId session items hasAddress email catalog st).1 = st ∧
      ∃ e, (createOrder gen baseId session items hasAddress email catalog st).2 =
        .error e) ∧
    (∀ (pre rest : List ReqItem) (bad : ReqItem) (ce : CatalogEntry),
      hasAddress = true →
      (∀ it ∈ pre, ∃ ri, resolveItem catalog st.products it = .ok ri) →
      findCatalogEntry bad.productId catalog = some ce →
      (bad.quantity < ce.minOrderQty ∨ ce.maxOrderQty < bad.quantity) →
      createOrder gen baseId session (pre ++ bad :: rest) hasAddress email
          catalog st =
        (st, .error (if bad.quantity < ce.minOrderQty then
          CreateError.belowMin ce.minOrderQty
        else CreateError.aboveMax ce.maxOrderQty))) := by
  constructor
  · intro items hbad
    have hni : items.isEmpty = false := by
      obtain ⟨it, hit, -⟩ := hbad
      cases items with
      | nil => simp at hit
      | cons a l => rfl
    obtain ⟨e, he⟩ := validateItems_oob catalog st.products items [] hbad
    unfold createOrder
    rw [hni]
    by_cases ha : hasAddress
    · simp only [ha, not_true_eq_false, Bool.false_eq_true, if_false, he]
      refine ⟨trivial, ⟨e, ?_⟩⟩
      rfl
    · simp only [ha]
      simp
  · intro pre rest bad ce ha hpre hce hoob
    have hval := validateItems_first_oob catalog st.products pre rest bad [] ce
      hpre hce hoob
    have hni : (pre ++ bad :: rest).isEmpty = false := by
      cases pre <;> rfl
    unfold createOrder
    rw [hni, ha]
    simp only [not_true_eq_false, if_false, hval, Bool.false_eq_true, reduceIte]

theorem claim_C5_witness :
    ((createOrder wGen 500 wSess
        [{ productId := 1, quantity := 20 }] true 7 wCatalog wStInit).1 = wStInit ∧
      ∃ e, (createOrder wGen 500 wSess
        [{ productId := 1, quantity := 20 }] true 7 wCatalog wStInit).2 =
          .error e) ∧
    createOrder wGen 500 wSess
        ([{ productId := 2, quantity := 2 }] ++
          ({ productId := 1, quantity := 1 } : ReqItem) :: []) true 7 wCatalog
        wStInit =
      (wStInit, .error (if (1 : Nat) < wCeA.minOrderQty then
        CreateError.belowMin wCeA.minOrderQty
      else CreateError.aboveMax wCeA.maxOrderQty)) :=
  ⟨(claim_C5 wGen 500 wSess true 7 wCatalog wStInit).1
      [{ productId := 1, quantity := 20 }] (by decide),
   (claim_C5 wGen 500 wSess true 7 wCatalog wStInit).2
      [{ productId := 2, quantity := 2 }] [] { productId := 1, quantity := 1 }
      wCeA rfl
      (by
        intro it hit
        rw [List.mem_singleton] at hit
        subst hit
        exact ⟨{ product := wProdB, quantity := 2, unitPrice := 50 }, by decide⟩)
      (by decide) (by decide)⟩

/-! ### Claim C8: session failure leaves persisted orders alone -/

theorem resolveItem_error_ne (catalog : List CatalogEntry)
    (products : List Product) (it : ReqItem) (e : CreateError)
    (h : resolveItem catalog products it = .error e) :
    e ≠ .sessionFailed := by
  unfold resolveItem at h
  split at h
  · injection h with h'
    subst h'
    simp
  · split at h
    · injection h with h'
      subst h'
      simp
    · split at h
      · injection h with h'
        subst h'
        simp
      · split at h
        · injection h with h'
          subst h'
          simp
        · split at h
          · exact absurd h (by simp)
          · injection h with h'
            subst h'
            simp

theorem validateItems_error_ne (catalog : List CatalogEntry)
    (products : List Product) (its : List ReqItem) (acc : SellerGroups)
    (e : CreateError) (h : validateItems catalog products its acc = .error e) :
    e ≠ .sessionFailed := by
  induction its generalizing acc with
  | nil =>
    rw [validateItems] at h
    exact absurd h (by simp)
  | cons it rest ih =>
    rw [validateItems] at h
    split at h
    · rename_i e' hre
      injection h with h'
      subst h'
      exact resolveItem_error_ne _ _ _ _ hre
    · exact ih _ h

/-- Claim C8: when payment-session creation fails after the per-seller
orders have been persisted, the route reports sessionFailed, the
persisted orders remain appended to the state in pending lifecycle
status and unpaid payment status with no session or gateway identifier
back-filled, and nothing else in the state is touched. -/
theorem claim_C8 (gen : Nat → Nat) (baseId : Nat)
    (session : Nat → Nat → Except Unit Nat) (items : List ReqItem)
    (hasAddress : Bool) (email : Nat) (catalog : List CatalogEntry)
    (st st2 : St)
    (h : createOrder gen baseId session items hasAddress email catalog st =
      (st2, .error .sessionFailed)) :
    ∃ newOrders : List Order, newOrders ≠ [] ∧
      st2.orders = st.orders ++ newOrders ∧
      st2.products = st.products ∧ st2.quotes = st.quotes ∧
      ∀ o ∈ newOrders, o.status = .pending ∧ o.paymentStatus = .unpaid ∧
        o.cashfreeOrderId = none ∧ o.paymentSessionId = none := by
  unfold createOrder at h
  split at h
  · simp at h
  · split at h
    · simp at h
    · rename_i hni hna
      split at h
      · rename_i e hval
        simp only [Prod.mk.injEq] at h
        obtain ⟨-, h2⟩ := h
        injection h2 with h2
        exact absurd h2 (validateItems_error_ne _ _ _ _ _ hval)
      · rename_i groups hval
        simp only [] at h
        split at h
        · rename_i u hsess
          simp only [Prod.mk.injEq] at h
          obtain ⟨hst, -⟩ := h
          have hitems : items ≠ [] := by
            intro hh
            subst hh
            exact hni rfl
          refine ⟨buildOrders gen baseId email 0 groups, ?_, ?_, ?_, ?_, ?_⟩
          · exact buildOrders_ne_nil _ _ _ _ _
              (validateItems_ne_nil _ _ _ _ hval hitems)
          · rw [← hst]
          · rw [← hst]
          · rw [← hst]
          · intro o ho
            obtain ⟨h1, h2, h3, h4, -⟩ := buildOrders_mem _ _ _ _ _ o ho
            exact ⟨h1, h2, h3, h4⟩
        · simp at h

/-- A gateway whose session creation always fails. -/
def wSessFail : Nat → Nat → Except Unit Nat := fun _ _ => .error ()

/-- The two orders of the witness scenario as persisted before the
session back-fill. -/
def wOrder1Pre : Order :=
  { wOrder1 with cashfreeOrderId := none, paymentSessionId := none }

def wOrder2Pre : Order :=
  { wOrder2 with cashfreeOrderId := none, paymentSessionId := none }

def wStFail : St :=
  { orders := [wOrder1Pre, wOrder2Pre], products := [wProdA, wProdB], quotes := [] }

theorem claim_C8_witness :
    ∃ newOrders : List Order, newOrders ≠ [] ∧
      wStFail.orders = wStInit.orders ++ newOrders ∧
      wStFail.products = wStInit.products ∧ wStFail.quotes = wStInit.quotes ∧
      ∀ o ∈ newOrders, o.status = .pending ∧ o.paymentStatus = .unpaid ∧
        o.cashfreeOrderId = none ∧ o.paymentSessionId = none :=
  claim_C8 wGen 500 wSessFail wItems true 7 wCatalog wStInit wStFail (by decide)

/-! ### Claim C9: effective unit price -/

/-- A catalog entry whose corporate override price is zero. -/
def wCeZero : CatalogEntry :=
  { productId := 2, corporatePrice := some 0, minOrderQty := 1, maxOrderQty := 5,
    isActive := true }

/-- Counterexample to claim C9 as stated: with the corporate override
price set to 0, the stored unit price is the product's base price 50,
not the override — catalogEntry.corporatePrice || product.price treats
a zero override as unset. -/
theorem claim_C9_cex :
    wCeZero.corporatePrice = some 0 ∧
    effectiveUnitPrice wCeZero wProdB = 50 ∧
    wProdB.price = 50 ∧ (50 : Nat) ≠ 0 ∧
    resolveItem [wCeZero] [wProdB] { productId := 2, quantity := 1 } =
      .ok { product := wProdB, quantity := 1, unitPrice := 50 } := by
  decide

/-- Claim C9, amended: the unit price stored on a resolved item is the
effective unit price of its catalog entry and product — the corporate
override when the override is set and nonzero, and the product's base
price when the override is absent or zero (JavaScript truthiness of
the || fallback). -/
theorem claim_C9 (catalog : List CatalogEntry) (products : List Product)
    (it : ReqItem) (ce : CatalogEntry) (p : Product) (ri : ResolvedItem)
    (hri : resolveItem catalog products it = .ok ri)
    (hce : findCatalogEntry it.productId catalog = some ce)
    (hp : findProduct it.productId products = some p) :
    ri.unitPrice = effectiveUnitPrice ce p ∧
    (∀ cp, ce.corporatePrice = some cp → cp ≠ 0 → ri.unitPrice = cp) ∧
    (ce.corporatePrice = none → ri.unitPrice = p.price) ∧
    (ce.corporatePrice = some 0 → ri.unitPrice = p.price) := by
  unfold resolveItem at hri
  split at hri
  · exact absurd hri (by simp)
  · rename_i ce' hce'
    rw [hce] at hce'
    injection hce' with hce'
    subst hce'
    split at hri
    · exact absurd hri (by simp)
    · split at hri
      · exact absurd hri (by simp)
      · split at hri
        · exact absurd hri (by simp)
        · rename_i p' hp'
          rw [hp] at hp'
          injection hp' with hp'
          subst hp'
          split at hri
          · injection hri with h'
            subst h'
            refine ⟨rfl, ?_, ?_, ?_⟩
            · intro cp hcp hne
              simp [effectiveUnitPrice, hcp, hne]
            · intro hcp
              simp [effectiveUnitPrice, hcp]
            · intro hcp
              simp [effectiveUnitPrice, hcp]
          · exact absurd hri (by simp)

theorem claim_C9_witness :
    ({ product := wProdA, quantity := 5, unitPrice := 100 } : ResolvedItem).unitPrice =
      effectiveUnitPrice wCeA wProdA ∧
    (∀ cp, wCeA.corporatePrice = some cp → cp ≠ 0 →
      ({ product := wProdA, quantity := 5, unitPrice := 100 } : ResolvedItem).unitPrice = cp) ∧
    (wCeA.corporatePrice = none →
      ({ product := wProdA, quantity := 5, unitPrice := 100 } : ResolvedItem).unitPrice = wProdA.price) ∧
    (wCeA.corporatePrice = some 0 →
      ({ product := wProdA, quantity := 5, unitPrice := 100 } : ResolvedItem).unitPrice = wProdA.price) :=
  claim_C9 wCatalog wStInit.products { productId := 1, quantity := 5 } wCeA wProdA
    { product := wProdA, quantity := 5, unitPrice := 100 }
    (by decide) (by decide) (by decide)

/-! ### Claim C7: quote expiry -/

theorem findQuoteById_replaceQuote (q' : Quote) (qs : List Quote)
    (h : ∃ x ∈ qs, x.id = q'.id) :
    findQuoteById q'.id (replaceQuote q' qs) = some q' := by
  induction qs with
  | nil => simp at h
  | cons x xs ih =>
    by_cases hx : x.id = q'.id
    · rw [replaceQuote, if_pos hx]
      unfold findQuoteById
      rw [List.find?_cons_of_pos _ (by simp)]
    · rw [replaceQuote, if_neg hx]
      obtain ⟨y, hy, hyid⟩ := h
      rcases List.mem_cons.mp hy with h1 | h1
      · subst h1
        exact absurd hyid hx
      · unfold findQuoteById
        rw [List.find?_cons_of_neg _ (by simpa using hx)]
        exact ih ⟨y, h1, hyid⟩

theorem replaceQuote_of_nodup (q' : Quote) (qs : List Quote)
    (hnd : (qs.map Quote.id).Nodup) :
    ∀ x ∈ replaceQuote q' qs, x.id = q'.id → x = q' := by
  induction qs with
  | nil => intro x hx; simp [replaceQuote] at hx
  | cons y ys ih =>
    rw [List.map_cons, List.nodup_cons] at hnd
    intro x hx hxid
    by_cases hy : y.id = q'.id
    · rw [replaceQuote, if_pos hy] at hx
      rcases List.mem_cons.mp hx with h1 | h1
      · exact h1
      · have h2 : x.id ∈ ys.map Quote.id := List.mem_map_of_mem _ h1
        rw [hxid, ← hy] at h2
        exact absurd h2 hnd.1
    · rw [replaceQuote, if_neg hy] at hx
      rcases List.mem_cons.mp hx with h1 | h1
      · subst h1
        exact absurd hxid hy
      · exact ih hnd.2 x h1 hxid

theorem approveMatch_none_after (qid u2 e2 : Nat) (q' : Quote)
    (qs : List Quote) (hnd : (qs.map Quote.id).Nodup) (hqid : q'.id = qid)
    (hstat : q'.status ≠ .sent) :
    (replaceQuote q' qs).find? (approveMatch qid u2 e2) = none := by
  rw [List.find?_eq_none]
  intro x hx
  simp only [approveMatch, Bool.not_eq_true, decide_eq_false_iff_not]
  rintro ⟨hxid, -, hxs⟩
  have hxq : x = q' :=
    replaceQuote_of_nodup q' qs hnd x hx (hxid.trans hqid.symm)
  subst hxq
  exact hstat hxs

/-- Claim C7: approving a quote in sent status whose validity deadline
has passed transitions the quote to expired and persists that change
even though the request fails with QuoteExpired, touches no order or
product state, and every later approve attempt for that quote (for any
caller, time, address, or gateway behaviour) fails with QuoteNotFound
because approval only matches quotes in sent status. -/
theorem claim_C7 (qid userId email now : Nat) (hasAddress : Bool)
    (orderNumber newOrderId : Nat) (session : Nat → Nat → Except Unit Nat)
    (st : St) (q : Quote) (vu : Nat)
    (hnd : (st.quotes.map Quote.id).Nodup)
    (hf : st.quotes.find? (approveMatch qid userId email) = some q)
    (hvu : q.validUntil = some vu) (hlt : vu < now) :
    ∃ st1 : St,
      approveQuote qid userId email now hasAddress orderNumber newOrderId
        session st = (st1, .error .quoteExpired) ∧
      st1.orders = st.orders ∧ st1.products = st.products ∧
      findQuoteById qid st1.quotes = some { q with status := .expired } ∧
      (∀ (userId2 email2 now2 : Nat) (hasAddress2 : Bool)
        (orderNumber2 newOrderId2 : Nat)
        (session2 : Nat → Nat → Except Unit Nat),
        approveQuote qid userId2 email2 now2 hasAddress2 orderNumber2
          newOrderId2 session2 st1 = (st1, .error .quoteNotFound)) := by
  have hq := List.find?_some hf
  simp only [approveMatch, Bool.and_eq_true, decide_eq_true_eq] at hq
  obtain ⟨hqid, -, hqs⟩ := hq
  have hqmem : q ∈ st.quotes := List.mem_of_find?_eq_some hf
  have happ : approveQuote qid userId email now hasAddress orderNumber
      newOrderId session st =
      ({ st with quotes := replaceQuote { q with status := .expired } st.quotes },
       .error .quoteExpired) := by
    simp [approveQuote, hf, hvu, hlt]
  refine ⟨_, happ, rfl, rfl, ?_, ?_⟩
  · have h1 := findQuoteById_replaceQuote { q with status := .expired } st.quotes
      ⟨q, hqmem, rfl⟩
    simpa [hqid] using h1
  · intro userId2 email2 now2 hasAddress2 orderNumber2 newOrderId2 session2
    have hnone := approveMatch_none_after qid userId2 email2
      { q with status := .expired } st.quotes hnd (by simpa using hqid)
      (by simp)
    simp [approveQuote, hnone]

/-- The witness quote: sent, addressed to buyer 7, valid until time 10. -/
def wQuote : Quote :=
  { id := 5, quoteNumber := 55, corporateUserId := 7, contactEmail := 7,
    items := [{ productId := 1, unitPrice := 100, quantity := 5 }],
    totalAmount := 500, finalAmount := 480, validUntil := some 10,
    status := .sent, convertedOrderId := none }

def wQSt : St := { orders := [], products := [wProdA], quotes := [wQuote] }

theorem claim_C7_witness :
    ∃ st1 : St,
      approveQuote 5 7 7 20 true 200 600 wSess wQSt =
        (st1, .error .quoteExpired) ∧
      st1.orders = wQSt.orders ∧ st1.products = wQSt.products ∧
      findQuoteById 5 st1.quotes = some { wQuote with status := .expired } ∧
      (∀ (userId2 email2 now2 : Nat) (hasAddress2 : Bool)
        (orderNumber2 newOrderId2 : Nat)
        (session2 : Nat → Nat → Except Unit Nat),
        approveQuote 5 userId2 email2 now2 hasAddress2 orderNumber2
          newOrderId2 session2 st1 = (st1, .error .quoteNotFound)) :=
  claim_C7 5 7 7 20 true 200 600 wSess wQSt wQuote 10 (by decide) (by decide)
    (by decide) (by decide)

end Corporate
